import Mathlib

/-!
HomePage feed logic (client/src/pages/HomePage.jsx).

A shallow embedding of the state-handling code of the `HomePage` component:
the local fallback patches of `toggleLike` and `addComment`, the seeding
function `ensureDemoPosts`, the display selection `sortedPosts`, and the
subscription effect with its snapshot, error and timeout callbacks.

JavaScript values are embedded as follows.
* A field the code reads through `x || []` (`likes`, `comments`) is an
  `Option`: `none` is an absent (`undefined`) field.
* A callback that throws (`post.likes.filter` on an absent `likes`) makes the
  enclosing `Array.prototype.map` throw; the embedding returns `none`.
* Remote calls (`updateDoc`, `addDoc`, `onSnapshot`) are not run; their
  outcome is a parameter of the embedded function.
-/

namespace HomePage

/-! ## Data model -/

/-- Value of a `createdAt` field. -/
inductive CreatedAt where
  /-- the placeholder written by `serverTimestamp()` -/
  | serverTimestamp
  /-- the object `{ toDate: () => new Date() }` of the default demo posts -/
  | clientClock
  /-- a resolved time -/
  | time (ms : Nat)
  deriving DecidableEq, Repr

/-- A comment object, as built in `addComment`. -/
structure Comment where
  text : String
  authorId : String
  authorName : String
  createdAt : Nat
  deriving DecidableEq, Repr

/-- The fields of a document of the `posts` collection (`d.data()`, and the
argument of `addDoc`). -/
structure DocData where
  text : String
  authorId : String
  authorName : String
  likes : Option (List String)
  comments : Option (List Comment)
  createdAt : CreatedAt
  deriving DecidableEq, Repr

/-- A document of a snapshot: `d.id` and `d.data()`. The data of a document
not written by this component may hold a field named `id` of its own. -/
structure Doc where
  id : String
  /-- the value of a field named `id` in `d.data()`, when there is one -/
  dataId : Option String
  data : DocData
  deriving DecidableEq, Repr

/-- An element of the `posts` state: `{ id: d.id, ...d.data() }`. -/
structure Post where
  id : String
  text : String
  authorId : String
  authorName : String
  likes : Option (List String)
  comments : Option (List Comment)
  createdAt : CreatedAt
  deriving DecidableEq, Repr

/-- The signed-in user, as far as the component reads it. -/
structure User where
  uid : String
  displayName : Option String
  deriving DecidableEq, Repr

/-- The expression `post.likes || []`. -/
def likesOrEmpty (post : Post) : List String :=
  post.likes.getD []

/-- The expression `post.comments || []`. -/
def commentsOrEmpty (post : Post) : List Comment :=
  post.comments.getD []

/-- The expression `user.displayName || 'Anonymous'`: an absent and an empty
display name are both falsy. -/
def displayNameOrAnonymous (user : User) : String :=
  match user.displayName with
  | none => "Anonymous"
  | some s => if s = "" then "Anonymous" else s

/-- The object `{ id: d.id, ...d.data() }` pushed by the snapshot callback:
the spread comes second, so a field named `id` in the data replaces `d.id`. -/
def docToPost (d : Doc) : Post :=
  { id := d.dataId.getD d.id
    text := d.data.text
    authorId := d.data.authorId
    authorName := d.data.authorName
    likes := d.data.likes
    comments := d.data.comments
    createdAt := d.data.createdAt }

/-- The memoised `defaultDemoPosts` (lines 85-113). -/
def defaultDemoPosts : List Post :=
  [ { id := "demo-1"
      text := "Welcome to the demo feed! Share your first update."
      authorId := "demo"
      authorName := "LinkedIn Demo"
      likes := some []
      comments := some []
      createdAt := CreatedAt.clientClock },
    { id := "demo-2"
      text := "Hiring: We are looking for a frontend engineer. DM if interested!"
      authorId := "demo"
      authorName := "LinkedIn Demo"
      likes := some []
      comments := some []
      createdAt := CreatedAt.clientClock },
    { id := "demo-3"
      text := "Tip: Use Firestore for a realtime, universal feed across users."
      authorId := "demo"
      authorName := "LinkedIn Demo"
      likes := some []
      comments := some []
      createdAt := CreatedAt.clientClock } ]

/-! ## Interaction handlers -/

/-- The callback of `prev.map` in `toggleLike` (lines 182-189). The unlike
branch calls `post.likes.filter` without the `|| []` of the like branch, so it
throws on an absent `likes`. -/
def toggleLikePost (uid postId : String) (isLiked : Bool) (post : Post) : Option Post :=
  if post.id = postId then
    if isLiked then
      match post.likes with
      | none => none
      | some likes => some { post with likes := some (likes.filter (fun id => id != uid)) }
    else
      some { post with likes := some (likesOrEmpty post ++ [uid]) }
  else
    some post

/-- The updater `prev => prev.map(...)` of the `catch` branch of `toggleLike`. -/
def toggleLikeLocal (uid postId : String) (isLiked : Bool) (prev : List Post) :
    Option (List Post) :=
  prev.mapM (toggleLikePost uid postId isLiked)

/-- The function `toggleLike(postId, isLiked)` as a transformer of the `posts`
state: when `updateDoc` resolves the state is untouched, when it rejects the
local patch is applied. -/
def toggleLike (updateDocOk : Bool) (user : User) (postId : String) (isLiked : Bool)
    (prev : List Post) : Option (List Post) :=
  if updateDocOk then some prev else toggleLikeLocal user.uid postId isLiked prev

/-- The comment object built in `addComment`; `now` is `Date.now()`. -/
def newComment (user : User) (text : String) (now : Nat) : Comment :=
  { text := text
    authorId := user.uid
    authorName := displayNameOrAnonymous user
    createdAt := now }

/-- The callback of `prev.map` in `addComment` (lines 202-206). -/
def addCommentPost (user : User) (postId text : String) (now : Nat) (post : Post) : Post :=
  if post.id = postId then
    { post with comments := some (commentsOrEmpty post ++ [newComment user text now]) }
  else
    post

/-- The function `addComment(postId, text)` as a transformer of the `posts`
state. -/
def addComment (updateDocOk : Bool) (user : User) (postId text : String) (now : Nat)
    (prev : List Post) : List Post :=
  if updateDocOk then prev else prev.map (addCommentPost user postId text now)

/-- The flag passed by the call site `toggleLike(p.id, (p.likes || []).includes(user.uid))`. -/
def isLikedBy (uid : String) (p : Post) : Bool :=
  (likesOrEmpty p).contains uid

/-! ## Display selection -/

/-- The memoised `sortedPosts` (lines 241-244). -/
def sortedPosts (posts : List Post) : List Post :=
  let demoPosts := posts.filter (fun post => post.authorId == "demo")
  if demoPosts.length > 0 then demoPosts else defaultDemoPosts

/-! ## Demo seeding -/

/-- The array `demoPostTexts` of `ensureDemoPosts`. -/
def demoPostTexts : List String :=
  [ "Welcome to the demo feed! Share your first update.",
    "Hiring: We are looking for a frontend engineer. DM if interested!",
    "Tip: Use Firestore for a realtime, universal feed across users." ]

/-- The object passed to `addDoc` for one missing text. -/
def demoDoc (text : String) : DocData :=
  { text := text
    authorId := "demo"
    authorName := "LinkedIn Demo"
    likes := some []
    comments := some []
    createdAt := CreatedAt.serverTimestamp }

/-- The loop `for (const text of missingTexts) await addDoc(...)`: the result
is the list of documents created. A rejected `addDoc` throws out of the loop
into the enclosing `catch`, so the remaining texts are not created. -/
def createMissing (addDocOk : DocData → Bool) : List String → List DocData
  | [] => []
  | text :: rest =>
    if addDocOk (demoDoc text) then demoDoc text :: createMissing addDocOk rest else []

/-- The function `ensureDemoPosts(existingPosts)` (lines 210-238); the result
is the list of documents it creates in the store, in creation order. -/
def ensureDemoPosts (addDocOk : DocData → Bool) (existingPosts : List Post) : List DocData :=
  let existingDemoPosts := existingPosts.filter (fun post => post.authorId == "demo")
  if existingDemoPosts.length < 3 then
    let existingTexts := existingDemoPosts.map (fun post => post.text)
    let missingTexts := demoPostTexts.filter (fun text => !existingTexts.contains text)
    createMissing addDocOk missingTexts
  else
    []

/-! ## The subscription effect

The component holds four `useState` cells. The effect of lines 115-171 closes
over the `loading` and `demoPostsAdded` of the render it ran in, arms a timer
and registers the snapshot callbacks; its dependency list is
`[user, demoPostsAdded, defaultDemoPosts, loading]`, of which only `loading`
and `demoPostsAdded` ever change. An event (snapshot, subscription error,
timer) runs the callback of the current effect, which reads the captured
values. A render compares the dependencies with the captured ones and, when
they differ, cleans the effect up (timer cleared, listener removed) and runs it
again.

Two step relations are given. `act` and `trace` take events and renders in any
order, so several events may reach the callbacks of one effect run before the
next render. `step` and `run` are the schedule in which the component renders
to quiescence after every event. -/

/-- What the component is given from outside. -/
structure Env where
  /-- the result of `useAuth()` -/
  user : Option User
  /-- whether `query(...)` / `onSnapshot(...)` throws synchronously -/
  setupThrows : Bool
  /-- whether `addDoc` resolves for a given document -/
  addDocOk : DocData → Bool

/-- The four `useState` cells of `HomePage`. -/
structure State where
  posts : List Post
  loading : Bool
  error : Option String
  demoPostsAdded : Bool
  deriving DecidableEq, Repr

/-- What the last run of the effect left behind: the values of `loading` and
`demoPostsAdded` its callbacks closed over (also its dependency values),
whether its timer is still pending and whether its listener is registered. -/
structure Effect where
  loading : Bool
  demoPostsAdded : Bool
  timerPending : Bool
  listening : Bool
  deriving DecidableEq, Repr

/-- The component together with a record of what it did to the store. -/
structure Component where
  state : State
  effect : Effect
  /-- the arguments of the invocations of `ensureDemoPosts`, oldest first -/
  seedCalls : List (List Post)
  /-- the documents created by `ensureDemoPosts`, oldest first -/
  created : List DocData
  deriving DecidableEq, Repr

/-- The values of `useState([])`, `useState(true)`, `useState(null)`,
`useState(false)`, before any effect has run. -/
def initial : Component :=
  { state := { posts := [], loading := true, error := none, demoPostsAdded := false }
    effect := { loading := true, demoPostsAdded := false, timerPending := false,
                listening := false }
    seedCalls := []
    created := [] }

/-- One run of the effect body (lines 115-170), after the clean-up of the
previous run. -/
def runEffect (env : Env) (c : Component) : Component :=
  let loading := c.state.loading
  let demoPostsAdded := c.state.demoPostsAdded
  match env.user with
  | none =>
    { c with
      state := { c.state with loading := false }
      effect := { loading := loading, demoPostsAdded := demoPostsAdded,
                  timerPending := false, listening := false } }
  | some _ =>
    if env.setupThrows then
      { c with
        state := { c.state with
                   posts := defaultDemoPosts
                   loading := false
                   error := some "Failed to connect to database. Using demo data." }
        effect := { loading := loading, demoPostsAdded := demoPostsAdded,
                    timerPending := false, listening := false } }
    else
      { c with
        state := { c.state with posts := defaultDemoPosts, loading := false }
        effect := { loading := loading, demoPostsAdded := demoPostsAdded,
                    timerPending := true, listening := true } }

/-- The success callback of `onSnapshot` (lines 138-151). It reads the
`demoPostsAdded` captured by the effect that registered it. -/
def onSnapshotNext (env : Env) (c : Component) (docs : List Doc) : Component :=
  let list := docs.map docToPost
  let state := { c.state with posts := list, loading := false, error := none }
  let effect := { c.effect with timerPending := false }
  if !c.effect.demoPostsAdded then
    { state := { state with demoPostsAdded := true }
      effect := effect
      seedCalls := c.seedCalls ++ [list]
      created := c.created ++ ensureDemoPosts env.addDocOk list }
  else
    { c with state := state, effect := effect }

/-- The error callback of `onSnapshot` (lines 152-158). -/
def onSnapshotError (c : Component) : Component :=
  { c with
    state := { c.state with
               posts := defaultDemoPosts
               loading := false
               error := some "Failed to load posts. Using demo data." }
    effect := { c.effect with timerPending := false } }

/-- The timer callback (lines 127-133). It reads the `loading` captured by the
effect that armed it. -/
def onTimeout (c : Component) : Component :=
  let effect := { c.effect with timerPending := false }
  if c.effect.loading then
    { c with
      state := { c.state with
                 posts := defaultDemoPosts
                 loading := false
                 error := some "Connection timeout. Using demo data." }
      effect := effect }
  else
    { c with effect := effect }

/-- What can happen to a mounted component. -/
inductive Event where
  /-- the store delivers a snapshot -/
  | snapshot (docs : List Doc)
  /-- the store reports a subscription error -/
  | subscriptionError
  /-- 5000 ms have passed since the pending timer was armed -/
  | timeout
  deriving DecidableEq, Repr

/-- Run the callback an event is delivered to; an event without a registered
listener or a pending timer is not delivered. -/
def deliver (env : Env) (c : Component) : Event → Component
  | Event.snapshot docs => if c.effect.listening then onSnapshotNext env c docs else c
  | Event.subscriptionError => if c.effect.listening then onSnapshotError c else c
  | Event.timeout => if c.effect.timerPending then onTimeout c else c

/-- Whether the dependency list differs from the one of the last effect run. -/
def depsChanged (c : Component) : Bool :=
  c.effect.loading != c.state.loading || c.effect.demoPostsAdded != c.state.demoPostsAdded

/-- Re-render at most `fuel` times, re-running the effect while its
dependencies have changed. -/
def settle (env : Env) : Nat → Component → Component
  | 0, c => c
  | fuel + 1, c => if depsChanged c then settle env fuel (runEffect env c) else c

/-- One render: the effect is cleaned up and run again when its dependencies
have changed. -/
def render (env : Env) (c : Component) : Component :=
  if depsChanged c then runEffect env c else c

/-- Mounting: the effect runs once, then the component re-renders. -/
def mount (env : Env) : Component :=
  settle env 2 (runEffect env initial)

/-- One event: its callback runs, then the component re-renders. -/
def step (env : Env) (c : Component) (e : Event) : Component :=
  settle env 2 (deliver env c e)

/-- The component after a sequence of events. -/
def run (env : Env) (events : List Event) : Component :=
  events.foldl (step env) (mount env)

/-- What the scheduler does next: deliver an event, or render. -/
inductive Action where
  /-- an event reaches the callbacks of the current effect -/
  | event (e : Event)
  /-- the component renders -/
  | render
  deriving DecidableEq, Repr

/-- One action on the component. -/
def act (env : Env) (c : Component) : Action → Component
  | Action.event e => deliver env c e
  | Action.render => render env c

/-- The mounted component after a sequence of events and renders. -/
def trace (env : Env) (actions : List Action) : Component :=
  actions.foldl (act env) (mount env)

/-- Whether an event is a snapshot. -/
def isSnapshot : Event → Bool
  | Event.snapshot _ => true
  | _ => false

/-! ## Invariant of the data model -/

/-- The property "no post's likes contains a duplicate user id", an absent
`likes` field counting as empty. -/
def NoDuplicateLikes (posts : List Post) : Prop :=
  ∀ p ∈ posts, (likesOrEmpty p).Nodup

instance (posts : List Post) : Decidable (NoDuplicateLikes posts) := by
  unfold NoDuplicateLikes
  infer_instance

/-! ## Concrete inputs -/

/-- The signed-in user of the examples. -/
def alice : User :=
  { uid := "u1", displayName := some "Alice" }

/-- A comment already on a post. -/
def earlierComment : Comment :=
  { text := "first", authorId := "u2", authorName := "Bob", createdAt := 3 }

/-- A post `p0` that holds one comment and one like. -/
def postP0 : Post :=
  { id := "p0"
    text := "other"
    authorId := "u2"
    authorName := "Bob"
    likes := some ["u2"]
    comments := some [earlierComment]
    createdAt := CreatedAt.time 0 }

/-- A post `p1` with the given `comments` field. -/
def commentedP1 (comments : Option (List Comment)) : Post :=
  { id := "p1"
    text := "hello"
    authorId := "demo"
    authorName := "LinkedIn Demo"
    likes := some ["u2"]
    comments := comments
    createdAt := CreatedAt.time 1 }

/-- A post `p1` with the given `likes` field. -/
def postP1 (likes : Option (List String)) : Post :=
  { id := "p1"
    text := "hello"
    authorId := "demo"
    authorName := "LinkedIn Demo"
    likes := likes
    comments := some []
    createdAt := CreatedAt.time 1 }


/-- A demo-authored post with a text that is none of the canonical three. -/
def offTextDemoPost (id : String) : Post :=
  { id := id
    text := "Some other announcement."
    authorId := "demo"
    authorName := "LinkedIn Demo"
    likes := some []
    comments := some []
    createdAt := CreatedAt.time 1 }

/-- A snapshot of three demo-authored posts, none with a canonical text. -/
def threeOffTextDemoPosts : List Post :=
  [offTextDemoPost "a", offTextDemoPost "b", offTextDemoPost "c"]

end HomePage

namespace HomePage

/-! ## Facts about the local like patch -/

/-- The per-post relation between the input and the output of the like patch. -/
theorem toggleLikeLocal_eq_some_iff (uid postId : String) (isLiked : Bool)
    (prev out : List Post) :
    toggleLikeLocal uid postId isLiked prev = some out ↔
      List.Forall₂ (fun p q => toggleLikePost uid postId isLiked p = some q) prev out := by
  unfold toggleLikeLocal
  rw [← List.mapM'_eq_mapM]
  induction prev generalizing out with
  | nil =>
    cases out with
    | nil => simp
    | cons q qs => simp
  | cons p ps ih =>
    cases out with
    | nil =>
      simp only [List.mapM'_cons, List.forall₂_nil_right_iff]
      cases toggleLikePost uid postId isLiked p <;>
        cases List.mapM' (toggleLikePost uid postId isLiked) ps <;> simp
    | cons q qs =>
      simp only [List.mapM'_cons, List.forall₂_cons]
      rw [← ih qs]
      cases toggleLikePost uid postId isLiked p <;>
        cases List.mapM' (toggleLikePost uid postId isLiked) ps <;> simp

theorem toggleLikeLocal_nil (uid postId : String) (isLiked : Bool) :
    toggleLikeLocal uid postId isLiked [] = some [] := by
  rw [toggleLikeLocal_eq_some_iff]
  exact List.Forall₂.nil

theorem toggleLikeLocal_cons_some (uid postId : String) (isLiked : Bool)
    (p q : Post) (ps qs : List Post)
    (hp : toggleLikePost uid postId isLiked p = some q)
    (hps : toggleLikeLocal uid postId isLiked ps = some qs) :
    toggleLikeLocal uid postId isLiked (p :: ps) = some (q :: qs) := by
  rw [toggleLikeLocal_eq_some_iff] at hps ⊢
  exact List.Forall₂.cons hp hps

/-- A post with another id goes through the patch untouched. -/
theorem toggleLikePost_other (uid postId : String) (isLiked : Bool) (p : Post)
    (h : p.id ≠ postId) : toggleLikePost uid postId isLiked p = some p := by
  simp [toggleLikePost, h]

/-- The like branch of the patch. -/
theorem toggleLikePost_like (uid postId : String) (p : Post) (h : p.id = postId) :
    toggleLikePost uid postId false p =
      some { p with likes := some (likesOrEmpty p ++ [uid]) } := by
  simp [toggleLikePost, h]

/-- The unlike branch of the patch, on a post that has a `likes` field. -/
theorem toggleLikePost_unlike (uid postId : String) (p : Post) (likes : List String)
    (h : p.id = postId) (hl : p.likes = some likes) :
    toggleLikePost uid postId true p =
      some { p with likes := some (likes.filter (fun id => id != uid)) } := by
  simp [toggleLikePost, h, hl]

/-- When every post has an image under the patch that is related to it by `R`,
the patch returns a list related to the input position by position. -/
theorem toggleLikeLocal_forall₂ (uid postId : String) (isLiked : Bool)
    (R : Post → Post → Prop) (prev : List Post)
    (h : ∀ p ∈ prev, ∃ q, toggleLikePost uid postId isLiked p = some q ∧ R p q) :
    ∃ out, toggleLikeLocal uid postId isLiked prev = some out ∧ List.Forall₂ R prev out := by
  induction prev with
  | nil => exact ⟨[], toggleLikeLocal_nil uid postId isLiked, List.Forall₂.nil⟩
  | cons p ps ih =>
    obtain ⟨q, hq, hR⟩ := h p (List.mem_cons_self p ps)
    obtain ⟨qs, hqs, hRs⟩ := ih (fun x hx => h x (List.mem_cons_of_mem p hx))
    exact ⟨q :: qs, toggleLikeLocal_cons_some uid postId isLiked p q ps qs hq hqs,
      List.Forall₂.cons hR hRs⟩

/-- What the patch does to one post, provided an unliked post has a `likes`
field. -/
theorem toggleLikePost_spec (uid postId : String) (isLiked : Bool) (p : Post)
    (h : p.id = postId → isLiked = true → p.likes ≠ none) :
    ∃ q, toggleLikePost uid postId isLiked p = some q ∧
      ((p.id ≠ postId → q = p) ∧
       (p.id = postId →
          { q with likes := p.likes } = p ∧
          (uid ∈ likesOrEmpty q ↔ isLiked = false) ∧
          ∀ v, v ≠ uid → (v ∈ likesOrEmpty q ↔ v ∈ likesOrEmpty p))) := by
  by_cases hid : p.id = postId
  · cases isLiked with
    | false =>
      refine ⟨_, toggleLikePost_like uid postId p hid, fun hne => absurd hid hne, fun _ => ?_⟩
      refine ⟨rfl, ?_, ?_⟩
      · simp [likesOrEmpty]
      · intro v hv
        simp [likesOrEmpty, hv]
    | true =>
      cases hl : p.likes with
      | none => exact absurd hl (h hid rfl)
      | some likes =>
        refine ⟨_, toggleLikePost_unlike uid postId p likes hid hl,
          fun hne => absurd hid hne, fun _ => ?_⟩
        refine ⟨?_, ?_, ?_⟩
        · cases p
          simp_all
        · simp [likesOrEmpty, List.mem_filter]
        · intro v hv
          simp [likesOrEmpty, List.mem_filter, hv, hl]
  · exact ⟨p, toggleLikePost_other uid postId isLiked p hid, fun _ => rfl,
      fun heq => absurd heq hid⟩

/-- The local fallback of `toggleLike`, on every input on which an unliked
post has a `likes` field: the result has the posts of the input in the same
positions; a post with another id is unchanged; a post with the given id
changes in `likes` only, where the user id is a member afterwards exactly when
`isLiked` was false and the membership of every other id is unchanged. -/
theorem toggleLike_fallback_patch (user : User) (postId : String) (isLiked : Bool)
    (prev : List Post)
    (h : ∀ p ∈ prev, p.id = postId → isLiked = true → p.likes ≠ none) :
    ∃ out, toggleLike false user postId isLiked prev = some out ∧
      List.Forall₂
        (fun p q =>
          (p.id ≠ postId → q = p) ∧
          (p.id = postId →
            { q with likes := p.likes } = p ∧
            (user.uid ∈ likesOrEmpty q ↔ isLiked = false) ∧
            ∀ v, v ≠ user.uid → (v ∈ likesOrEmpty q ↔ v ∈ likesOrEmpty p)))
        prev out := by
  simp only [toggleLike, Bool.false_eq_true, if_false]
  exact toggleLikeLocal_forall₂ user.uid postId isLiked _ prev
    (fun p hp => toggleLikePost_spec user.uid postId isLiked p (h p hp))

/-- C1 (evaluation at the failing input): the remote update fails, the post
`p1` has no `likes` field and `isLiked` is true. The unlike branch calls
`post.likes.filter` on the absent field and throws, so no patched list is
produced; on the same post the like branch, which reads `post.likes || []`,
returns the post with `likes = ["u1"]`. -/
theorem toggleLike_unlike_absent_likes_throws :
    toggleLike false alice "p1" true [postP1 none] = none ∧
    toggleLike false alice "p1" false [postP1 none] = some [postP1 (some ["u1"])] := by
  decide

/-! ## Round trip of the like patch -/

/-- Liking then unliking, or unliking then liking, one post, when the first
flag is the membership of the user id in the likes of the post. -/
theorem toggleLikePost_twice (uid postId : String) (first : Bool) (p : Post)
    (hflag : p.id = postId → isLikedBy uid p = first) :
    ∃ m q, toggleLikePost uid postId first p = some m ∧
      toggleLikePost uid postId (!first) m = some q ∧
      (p.id ≠ postId → q = p) ∧
      { q with likes := p.likes } = p ∧
      ∀ v, v ∈ likesOrEmpty q ↔ v ∈ likesOrEmpty p := by
  by_cases hid : p.id = postId
  · have hmem := hflag hid
    cases first with
    | false =>
      have hnot : uid ∉ likesOrEmpty p := by
        simpa [isLikedBy] using hmem
      refine ⟨_, _, toggleLikePost_like uid postId p hid,
        toggleLikePost_unlike uid postId _ (likesOrEmpty p ++ [uid]) hid rfl,
        fun hne => absurd hid hne, rfl, ?_⟩
      intro v
      simp only [likesOrEmpty, Option.getD_some, List.mem_filter, List.mem_append,
        List.mem_singleton, bne_iff_ne, ne_eq]
      constructor
      · rintro ⟨hv | hv, hne⟩
        · exact hv
        · exact absurd hv hne
      · intro hv
        refine ⟨Or.inl hv, ?_⟩
        rintro rfl
        exact hnot hv
    | true =>
      have hin : uid ∈ likesOrEmpty p := by
        simpa [isLikedBy] using hmem
      cases hl : p.likes with
      | none => simp [likesOrEmpty, hl] at hin
      | some likes =>
        have hin' : uid ∈ likes := by simpa [likesOrEmpty, hl] using hin
        refine ⟨_, _, toggleLikePost_unlike uid postId p likes hid hl,
          toggleLikePost_like uid postId _ hid, fun hne => absurd hid hne, ?_, ?_⟩
        · cases p
          simp_all
        · intro v
          simp only [likesOrEmpty, hl, Option.getD_some, List.mem_filter, List.mem_append,
            List.mem_singleton, bne_iff_ne, ne_eq]
          constructor
          · rintro (⟨hv, _⟩ | rfl)
            · exact hv
            · exact hin'
          · intro hv
            by_cases hvu : v = uid
            · exact Or.inr hvu
            · exact Or.inl ⟨hv, hvu⟩
  · exact ⟨p, p, toggleLikePost_other uid postId first p hid,
      toggleLikePost_other uid postId (!first) p hid, fun _ => rfl, rfl, fun _ => Iff.rfl⟩

/-- C2 (counterexample): the post `p1` has likes `["u1"]`; the patch is applied
with flag false and then with flag true. The like set of `p1` contains `u1`
before and is empty afterwards. -/
theorem toggleLike_round_trip_fails :
    (toggleLikeLocal "u1" "p1" false [postP1 (some ["u1"])]).bind
        (toggleLikeLocal "u1" "p1" true) = some [postP1 (some [])] ∧
    "u1" ∈ likesOrEmpty (postP1 (some ["u1"])) ∧
    "u1" ∉ likesOrEmpty (postP1 (some [])) := by
  decide

/-- C2 (amended): when the first flag is the membership of the user id in the
likes (an absent field counting as empty) of every post with the given id in
the list the patch is applied to, applying the patch with that flag and then
with the opposite flag returns a list of the same length and order in which a
post with another id is unchanged and a post with the given id has the fields
other than `likes` unchanged and a like set with the members it had at the
start. -/
theorem toggleLike_round_trip (uid postId : String) (first : Bool) (prev : List Post)
    (hflag : ∀ p ∈ prev, p.id = postId → (p.likes.getD []).contains uid = first) :
    ∃ mid out, toggleLikeLocal uid postId first prev = some mid ∧
      toggleLikeLocal uid postId (!first) mid = some out ∧
      List.Forall₂
        (fun p q => (p.id ≠ postId → q = p) ∧
          { q with likes := p.likes } = p ∧
          ∀ v, v ∈ q.likes.getD [] ↔ v ∈ p.likes.getD [])
        prev out := by
  induction prev with
  | nil =>
    exact ⟨[], [], toggleLikeLocal_nil uid postId first,
      toggleLikeLocal_nil uid postId (!first), List.Forall₂.nil⟩
  | cons p ps ih =>
    obtain ⟨m, q, hm, hq, hR⟩ :=
      toggleLikePost_twice uid postId first p (hflag p (List.mem_cons_self p ps))
    obtain ⟨ms, qs, hms, hqs, hRs⟩ := ih (fun x hx => hflag x (List.mem_cons_of_mem p hx))
    exact ⟨m :: ms, q :: qs, toggleLikeLocal_cons_some uid postId first p m ps ms hm hms,
      toggleLikeLocal_cons_some uid postId (!first) m q ms qs hq hqs,
      List.Forall₂.cons hR hRs⟩

/-- Witness of `toggleLike_round_trip`: unlike then like on the post `p1`,
liked by `u1` and `u2`, in a list that also holds the post `p0`. -/
theorem toggleLike_round_trip_witness :
    (∀ p ∈ [postP0, postP1 (some ["u1", "u2"])],
      p.id = "p1" → (p.likes.getD []).contains "u1" = true) ∧
    (∃ mid out,
      toggleLikeLocal "u1" "p1" true [postP0, postP1 (some ["u1", "u2"])] = some mid ∧
      toggleLikeLocal "u1" "p1" (!true) mid = some out ∧
      List.Forall₂
        (fun p q => (p.id ≠ "p1" → q = p) ∧
          { q with likes := p.likes } = p ∧
          ∀ v, v ∈ q.likes.getD [] ↔ v ∈ p.likes.getD [])
        [postP0, postP1 (some ["u1", "u2"])] out) ∧
    (toggleLikeLocal "u1" "p1" true [postP0, postP1 (some ["u1", "u2"])]).bind
        (toggleLikeLocal "u1" "p1" false) = some [postP0, postP1 (some ["u2", "u1"])] :=
  ⟨by decide,
    toggleLike_round_trip "u1" "p1" true [postP0, postP1 (some ["u1", "u2"])] (by decide),
    by decide⟩

/-! ## Duplicate-free likes -/

/-- One post keeps duplicate-free likes under the patch when the flag is the
membership of the user id in its likes. -/
theorem toggleLikePost_nodup (uid postId : String) (isLiked : Bool) (p : Post)
    (hflag : p.id = postId → isLikedBy uid p = isLiked)
    (hnd : (likesOrEmpty p).Nodup) :
    ∃ q, toggleLikePost uid postId isLiked p = some q ∧ (likesOrEmpty q).Nodup := by
  by_cases hid : p.id = postId
  · have hmem := hflag hid
    cases isLiked with
    | false =>
      have hnot : uid ∉ likesOrEmpty p := by
        simpa [isLikedBy] using hmem
      refine ⟨_, toggleLikePost_like uid postId p hid, ?_⟩
      have hgoal : (likesOrEmpty p ++ [uid]).Nodup := by
        rw [List.nodup_append]
        refine ⟨hnd, List.nodup_singleton uid, ?_⟩
        intro a ha hb
        rw [List.mem_singleton] at hb
        exact hnot (hb ▸ ha)
      simpa [likesOrEmpty] using hgoal
    | true =>
      cases hl : p.likes with
      | none => simp [isLikedBy, likesOrEmpty, hl] at hmem
      | some likes =>
        refine ⟨_, toggleLikePost_unlike uid postId p likes hid hl, ?_⟩
        have hnd' : likes.Nodup := by simpa [likesOrEmpty, hl] using hnd
        simpa [likesOrEmpty] using hnd'.filter (fun id => id != uid)
  · exact ⟨p, toggleLikePost_other uid postId isLiked p hid, hnd⟩

/-- A property that holds of the right component of every related pair holds
of every element of the right list. -/
theorem forall_right_of_forall₂ (P : Post → Prop) (l out : List Post)
    (h : List.Forall₂ (fun _ q => P q) l out) : ∀ q ∈ out, P q := by
  induction h with
  | nil => intro q hq; cases hq
  | cons hpq _ ih =>
    intro q hq
    rcases List.mem_cons.mp hq with rfl | hq'
    · exact hpq
    · exact ih q hq'

/-- C10 (evaluation at the failing input): the post `p1` is rendered with empty
likes and the user clicks Like twice before either update settles, so both
calls carry the flag the call site computes from that render, false. Both
remote updates fail. The first patch gives likes `["u1"]`, without a
duplicate; the second patch receives that list with the flag false and appends
`u1` again, without the membership test that `arrayUnion` makes on the remote
path. -/
theorem toggleLike_double_click_duplicates :
    (postP1 (some [])).likes.getD [] = [] ∧
    ((postP1 (some [])).likes.getD []).contains alice.uid = false ∧
    toggleLike false alice "p1" false [postP1 (some [])] = some [postP1 (some ["u1"])] ∧
    (∀ p ∈ [postP1 (some ["u1"])], (p.likes.getD []).Nodup) ∧
    NoDuplicateLikes [postP1 (some ["u1"])] ∧
    toggleLike false alice "p1" false [postP1 (some ["u1"])] =
      some [postP1 (some ["u1", "u1"])] ∧
    ¬ NoDuplicateLikes [postP1 (some ["u1", "u1"])] ∧
    ¬ ((postP1 (some ["u1", "u1"])).likes.getD []).Nodup := by
  decide

/-- When the flag is the membership of the user id in the likes of every post
with the given id in the list the patch is applied to, the patch returns a
list, and "no post's likes contains a duplicate user id" holds of it whenever
it holds of the input. -/
theorem toggleLike_preserves_noDuplicateLikes (uid postId : String) (isLiked : Bool)
    (prev : List Post)
    (hflag : ∀ p ∈ prev, p.id = postId → isLikedBy uid p = isLiked)
    (hinv : NoDuplicateLikes prev) :
    ∃ out, toggleLikeLocal uid postId isLiked prev = some out ∧ NoDuplicateLikes out := by
  obtain ⟨out, hout, hR⟩ :=
    toggleLikeLocal_forall₂ uid postId isLiked (fun _ q => (likesOrEmpty q).Nodup) prev
      (fun p hp => toggleLikePost_nodup uid postId isLiked p (hflag p hp) (hinv p hp))
  exact ⟨out, hout, forall_right_of_forall₂ _ prev out hR⟩

/-! ## The local comment patch -/

/-- The comment patch leaves a list without the given id as it is. -/
theorem map_addCommentPost_of_not_mem (user : User) (postId text : String) (now : Nat)
    (ps : List Post) (h : postId ∉ ps.map (fun p => p.id)) :
    ps.map (addCommentPost user postId text now) = ps := by
  induction ps with
  | nil => rfl
  | cons p ps ih =>
    simp only [List.map_cons, List.mem_cons, not_or] at h
    have hne : p.id ≠ postId := fun heq => h.1 heq.symm
    simp only [List.map_cons, ih h.2]
    simp [addCommentPost, hne]

/-- C3: in a post list with unique ids that contains `postId`, the local
fallback of `addComment` replaces the one post with that id by the same post
with `comments` set to its previous comments (an absent field counting as
empty), in their order, followed by one new comment, and leaves the posts
before and after it as they are. The new comment has the given text, the
user's id, and as author name the user's display name, or `Anonymous` when the
display name is absent or empty. -/
theorem addComment_fallback_appends (user : User) (postId text : String) (now : Nat)
    (prev : List Post)
    (hunique : (prev.map (fun p => p.id)).Nodup)
    (hmem : postId ∈ prev.map (fun p => p.id)) :
    ∃ before target after c,
      prev = before ++ target :: after ∧
      target.id = postId ∧
      addComment false user postId text now prev =
        before ++
          { id := target.id
            text := target.text
            authorId := target.authorId
            authorName := target.authorName
            likes := target.likes
            comments := some (target.comments.getD [] ++ [c])
            createdAt := target.createdAt } :: after ∧
      c.text = text ∧
      c.authorId = user.uid ∧
      c.createdAt = now ∧
      (user.displayName = none → c.authorName = "Anonymous") ∧
      (user.displayName = some "" → c.authorName = "Anonymous") ∧
      (∀ name, user.displayName = some name → name ≠ "" → c.authorName = name) := by
  have hname : (user.displayName = none → (newComment user text now).authorName = "Anonymous") ∧
      (user.displayName = some "" → (newComment user text now).authorName = "Anonymous") ∧
      (∀ name, user.displayName = some name → name ≠ "" →
        (newComment user text now).authorName = name) := by
    refine ⟨?_, ?_, ?_⟩
    · intro h
      simp [newComment, displayNameOrAnonymous, h]
    · intro h
      simp [newComment, displayNameOrAnonymous, h]
    · intro name h hne
      simp [newComment, displayNameOrAnonymous, h, hne]
  simp only [addComment, Bool.false_eq_true, if_false]
  induction prev with
  | nil => simp at hmem
  | cons p ps ih =>
    rw [List.map_cons, List.nodup_cons] at hunique
    by_cases hid : p.id = postId
    · refine ⟨[], p, ps, newComment user text now, rfl, hid, ?_, rfl, rfl, rfl, hname⟩
      have hnot : postId ∉ ps.map (fun p => p.id) := hid ▸ hunique.1
      rw [List.map_cons, map_addCommentPost_of_not_mem user postId text now ps hnot]
      simp [addCommentPost, hid, commentsOrEmpty]
    · have hmem' : postId ∈ ps.map (fun p => p.id) := by
        rw [List.map_cons, List.mem_cons] at hmem
        rcases hmem with heq | hin
        · exact absurd heq.symm hid
        · exact hin
      obtain ⟨before, target, after, c, hsplit, htarget, hout, hrest⟩ := ih hunique.2 hmem'
      refine ⟨p :: before, target, after, c, ?_, htarget, ?_, hrest⟩
      · rw [hsplit, List.cons_append]
      · rw [List.map_cons, hout, List.cons_append]
        simp [addCommentPost, hid]

/-- Witness of `addComment_fallback_appends`: Alice comments on `p1`, which
holds one comment, in a list that also holds the post `p0` with a comment of
its own. The post `p0` is unchanged and `p1` holds its earlier comment followed
by the new one. -/
theorem addComment_fallback_appends_witness :
    ([postP0, commentedP1 (some [earlierComment])].map (fun p => p.id)).Nodup ∧
    "p1" ∈ [postP0, commentedP1 (some [earlierComment])].map (fun p => p.id) ∧
    (∃ before target after c,
      [postP0, commentedP1 (some [earlierComment])] = before ++ target :: after ∧
      target.id = "p1" ∧
      addComment false alice "p1" "nice post" 7 [postP0, commentedP1 (some [earlierComment])] =
        before ++
          { id := target.id
            text := target.text
            authorId := target.authorId
            authorName := target.authorName
            likes := target.likes
            comments := some (target.comments.getD [] ++ [c])
            createdAt := target.createdAt } :: after ∧
      c.text = "nice post" ∧
      c.authorId = alice.uid ∧
      c.createdAt = 7 ∧
      (alice.displayName = none → c.authorName = "Anonymous") ∧
      (alice.displayName = some "" → c.authorName = "Anonymous") ∧
      (∀ name, alice.displayName = some name → name ≠ "" → c.authorName = name)) ∧
    addComment false alice "p1" "nice post" 7 [postP0, commentedP1 (some [earlierComment])] =
      [postP0,
        commentedP1 (some [earlierComment,
          { text := "nice post", authorId := "u1", authorName := "Alice", createdAt := 7 }])] :=
  ⟨by decide, by decide,
    addComment_fallback_appends alice "p1" "nice post" 7
      [postP0, commentedP1 (some [earlierComment])] (by decide) (by decide),
    by decide⟩

/-! ## Display selection -/

/-- C4: the displayed list is never empty. When the posts state holds a post
with `authorId` `demo`, the displayed list is the posts state filtered to the
demo-authored posts: a sublist of the posts state (same relative order) in
which a demo-authored post occurs as often as in the state and another post
does not occur. Otherwise it is the list of the three default demo posts. -/
theorem sortedPosts_spec (posts : List Post) :
    sortedPosts posts ≠ [] ∧
    (((∃ p ∈ posts, p.authorId = "demo") ∧
        sortedPosts posts = posts.filter (fun p => decide (p.authorId = "demo")) ∧
        (sortedPosts posts).Sublist posts ∧
        ∀ p, (sortedPosts posts).count p = if p.authorId = "demo" then posts.count p else 0) ∨
     ((¬ ∃ p ∈ posts, p.authorId = "demo") ∧ sortedPosts posts = defaultDemoPosts)) := by
  have hfilter : (fun post : Post => post.authorId == "demo")
      = (fun p => decide (p.authorId = "demo")) := by
    funext p
    rfl
  by_cases hex : ∃ p ∈ posts, p.authorId = "demo"
  · obtain ⟨d, hd, hdemo⟩ := hex
    have hd' : d ∈ posts.filter (fun p => decide (p.authorId = "demo")) := by
      simp [List.mem_filter, hd, hdemo]
    have hpos : 0 < (posts.filter (fun p => decide (p.authorId = "demo"))).length :=
      List.length_pos_of_mem hd'
    have heq : sortedPosts posts = posts.filter (fun p => decide (p.authorId = "demo")) := by
      simp only [sortedPosts, hfilter]
      rw [if_pos hpos]
    refine ⟨?_, Or.inl ⟨⟨d, hd, hdemo⟩, heq, ?_, ?_⟩⟩
    · rw [heq]
      exact List.ne_nil_of_length_pos hpos
    · rw [heq]
      exact List.filter_sublist posts
    · intro p
      rw [heq]
      by_cases hp : p.authorId = "demo"
      · rw [if_pos hp]
        exact List.count_filter (by simp [hp])
      · rw [if_neg hp]
        apply List.count_eq_zero_of_not_mem
        simp [List.mem_filter, hp]
  · have hnil : posts.filter (fun p => decide (p.authorId = "demo")) = [] := by
      rw [List.filter_eq_nil_iff]
      intro p hp hdec
      exact hex ⟨p, hp, by simpa using hdec⟩
    have heq : sortedPosts posts = defaultDemoPosts := by
      simp only [sortedPosts, hfilter, hnil]
      rfl
    refine ⟨?_, Or.inr ⟨hex, heq⟩⟩
    rw [heq]
    decide

/-! ## Demo seeding -/

/-- The texts of the demo-authored posts of a snapshot (`existingTexts`). -/
theorem mem_existingTexts (existing : List Post) (t : String) :
    t ∈ (existing.filter (fun post => post.authorId == "demo")).map (fun post => post.text) ↔
      ∃ p ∈ existing, p.authorId = "demo" ∧ p.text = t := by
  simp only [List.mem_map, List.mem_filter, beq_iff_eq]
  constructor
  · rintro ⟨p, ⟨hp, hdemo⟩, ht⟩
    exact ⟨p, hp, hdemo, ht⟩
  · rintro ⟨p, hp, hdemo, ht⟩
    exact ⟨p, ⟨hp, hdemo⟩, ht⟩

/-- The texts of `missingTexts`. -/
theorem mem_missingTexts (existing : List Post) (t : String) :
    t ∈ demoPostTexts.filter (fun text =>
        !((existing.filter (fun post => post.authorId == "demo")).map
            (fun post => post.text)).contains text) ↔
      t ∈ demoPostTexts ∧ ¬ ∃ p ∈ existing, p.authorId = "demo" ∧ p.text = t := by
  rw [List.mem_filter, ← mem_existingTexts]
  simp

/-- The creation loop creates a document for a prefix of the texts it is
given. -/
theorem createMissing_texts_initial (addDocOk : DocData → Bool) (texts : List String) :
    (createMissing addDocOk texts).map (fun d => d.text) <+: texts := by
  induction texts with
  | nil => exact List.prefix_refl []
  | cons t rest ih =>
    unfold createMissing
    by_cases hok : addDocOk (demoDoc t) = true
    · rw [if_pos hok, List.map_cons]
      exact (List.prefix_cons_inj t).mpr ih
    · rw [if_neg hok]
      exact List.nil_prefix

/-- When every `addDoc` resolves the loop creates a document for each text. -/
theorem createMissing_all_ok (addDocOk : DocData → Bool) (texts : List String)
    (hok : ∀ d, addDocOk d = true) :
    createMissing addDocOk texts = texts.map demoDoc := by
  induction texts with
  | nil => rfl
  | cons t rest ih =>
    unfold createMissing
    rw [if_pos (hok _), ih, List.map_cons]

/-- The texts created by one invocation are, in order, among the missing
texts. -/
theorem ensureDemoPosts_texts_sublist (addDocOk : DocData → Bool) (existing : List Post) :
    ((ensureDemoPosts addDocOk existing).map (fun d => d.text)).Sublist
      (demoPostTexts.filter (fun text =>
        !((existing.filter (fun post => post.authorId == "demo")).map
            (fun post => post.text)).contains text)) := by
  unfold ensureDemoPosts
  by_cases hlt : (existing.filter (fun post => post.authorId == "demo")).length < 3
  · simp only [hlt, if_true]
    exact (createMissing_texts_initial addDocOk _).sublist
  · simp only [hlt, if_false]
    exact List.nil_sublist _

/-- The texts created by one invocation are pairwise distinct canonical
texts. -/
theorem ensureDemoPosts_texts_nodup (addDocOk : DocData → Bool) (existing : List Post) :
    ((ensureDemoPosts addDocOk existing).map (fun d => d.text)).Nodup ∧
    ∀ t ∈ (ensureDemoPosts addDocOk existing).map (fun d => d.text), t ∈ demoPostTexts := by
  have hsub := (ensureDemoPosts_texts_sublist addDocOk existing).trans
    (List.filter_sublist demoPostTexts)
  have hnd : demoPostTexts.Nodup := by decide
  exact ⟨hnd.sublist hsub, fun t ht => hsub.subset ht⟩

/-- A list of pairwise distinct canonical texts has at most three entries. -/
theorem length_le_three_of_nodup_canonical (texts : List String) (hnd : texts.Nodup)
    (hsub : ∀ t ∈ texts, t ∈ demoPostTexts) : texts.length ≤ 3 :=
  (hnd.subperm hsub).length_le

/-- The number of demo-authored posts of a snapshot. -/
theorem length_existingDemoPosts (existing : List Post) :
    (existing.filter (fun post => post.authorId == "demo")).length =
      existing.countP (fun p => p.authorId == "demo") :=
  (List.countP_eq_length_filter _ existing).symm

/-- C6 (counterexample): the snapshot holds three demo-authored posts, none
with a canonical text. Every `addDoc` would succeed, the first canonical text
is the text of no demo-authored post of the snapshot, and nothing is
created. -/
theorem ensureDemoPosts_skips_missing_text :
    "Welcome to the demo feed! Share your first update." ∈ demoPostTexts ∧
    (∀ p ∈ threeOffTextDemoPosts, p.authorId = "demo" →
      p.text ≠ "Welcome to the demo feed! Share your first update.") ∧
    ensureDemoPosts (fun _ => true) threeOffTextDemoPosts = [] := by
  decide

/-- C6 (amended): with every `addDoc` succeeding, either the snapshot holds
three or more demo-authored posts and nothing is created, or it holds fewer
than three and the created documents are, each once, exactly the documents
with `authorId` `demo`, empty likes and empty comments for the canonical texts
that are the text of no demo-authored post of the snapshot; then every
canonical text is carried by a demo-authored post of the snapshot or by a
created one. -/
theorem ensureDemoPosts_creates_missing (addDocOk : DocData → Bool) (existing : List Post)
    (hok : ∀ d, addDocOk d = true) :
    (3 ≤ existing.countP (fun p => p.authorId == "demo") ∧
      ensureDemoPosts addDocOk existing = []) ∨
    (existing.countP (fun p => p.authorId == "demo") < 3 ∧
      (ensureDemoPosts addDocOk existing).Nodup ∧
      (∀ d, d ∈ ensureDemoPosts addDocOk existing ↔
        ∃ t ∈ demoPostTexts, (∀ p ∈ existing, p.authorId = "demo" → p.text ≠ t) ∧
          d = { text := t
                authorId := "demo"
                authorName := "LinkedIn Demo"
                likes := some []
                comments := some []
                createdAt := CreatedAt.serverTimestamp }) ∧
      (∀ t ∈ demoPostTexts,
        (∃ p ∈ existing, p.authorId = "demo" ∧ p.text = t) ∨
        (∃ d ∈ ensureDemoPosts addDocOk existing, d.authorId = "demo" ∧ d.text = t))) := by
  by_cases hlt : existing.countP (fun p => p.authorId == "demo") < 3
  · right
    have hlt' : (existing.filter (fun post => post.authorId == "demo")).length < 3 := by
      rw [length_existingDemoPosts]
      exact hlt
    have heq : ensureDemoPosts addDocOk existing
        = (demoPostTexts.filter (fun text =>
            !((existing.filter (fun post => post.authorId == "demo")).map
                (fun post => post.text)).contains text)).map demoDoc := by
      unfold ensureDemoPosts
      simp only [hlt', if_true]
      exact createMissing_all_ok addDocOk _ hok
    have hinj : Function.Injective demoDoc := by
      intro a b hab
      exact congrArg DocData.text hab
    have hmem : ∀ d, d ∈ ensureDemoPosts addDocOk existing ↔
        ∃ t ∈ demoPostTexts, (∀ p ∈ existing, p.authorId = "demo" → p.text ≠ t) ∧
          d = demoDoc t := by
      intro d
      rw [heq, List.mem_map]
      constructor
      · rintro ⟨t, ht, rfl⟩
        rw [mem_missingTexts] at ht
        exact ⟨t, ht.1, fun p hp hdemo htext => ht.2 ⟨p, hp, hdemo, htext⟩, rfl⟩
      · rintro ⟨t, ht, hnone, rfl⟩
        refine ⟨t, ?_, rfl⟩
        rw [mem_missingTexts]
        exact ⟨ht, fun ⟨p, hp, hdemo, htext⟩ => hnone p hp hdemo htext⟩
    refine ⟨hlt, ?_, hmem, ?_⟩
    · rw [heq]
      have hnd : demoPostTexts.Nodup := by decide
      exact (hnd.filter _).map hinj
    · intro t ht
      by_cases hex : ∃ p ∈ existing, p.authorId = "demo" ∧ p.text = t
      · exact Or.inl hex
      · right
        refine ⟨demoDoc t, (hmem _).mpr ⟨t, ht, ?_, rfl⟩, rfl, rfl⟩
        intro p hp hdemo htext
        exact hex ⟨p, hp, hdemo, htext⟩
  · left
    have hge : ¬ (existing.filter (fun post => post.authorId == "demo")).length < 3 := by
      rw [length_existingDemoPosts]
      exact hlt
    refine ⟨Nat.le_of_not_lt hlt, ?_⟩
    unfold ensureDemoPosts
    simp only [hge, if_false]

/-- Witness of `ensureDemoPosts_creates_missing`: an empty snapshot. -/
theorem ensureDemoPosts_creates_missing_witness :
    (∀ d : DocData, (fun _ => true) d = true) ∧
    ((3 ≤ ([] : List Post).countP (fun p => p.authorId == "demo") ∧
      ensureDemoPosts (fun _ => true) [] = []) ∨
    (([] : List Post).countP (fun p => p.authorId == "demo") < 3 ∧
      (ensureDemoPosts (fun _ => true) []).Nodup ∧
      (∀ d, d ∈ ensureDemoPosts (fun _ => true) [] ↔
        ∃ t ∈ demoPostTexts, (∀ p ∈ ([] : List Post), p.authorId = "demo" → p.text ≠ t) ∧
          d = { text := t
                authorId := "demo"
                authorName := "LinkedIn Demo"
                likes := some []
                comments := some []
                createdAt := CreatedAt.serverTimestamp }) ∧
      (∀ t ∈ demoPostTexts,
        (∃ p ∈ ([] : List Post), p.authorId = "demo" ∧ p.text = t) ∨
        (∃ d ∈ ensureDemoPosts (fun _ => true) [], d.authorId = "demo" ∧ d.text = t)))) :=
  ⟨fun _ => rfl, ensureDemoPosts_creates_missing (fun _ => true) [] (fun _ => rfl)⟩

/-- C7 (counterexample): two invocations with the same, empty, snapshot, every
`addDoc` succeeding: six documents are created, each canonical text twice. -/
theorem ensureDemoPosts_same_snapshot_twice :
    (ensureDemoPosts (fun _ => true) [] ++ ensureDemoPosts (fun _ => true) []).length = 6 ∧
    (ensureDemoPosts (fun _ => true) [] ++ ensureDemoPosts (fun _ => true) []).map
        (fun d => d.text) = demoPostTexts ++ demoPostTexts := by
  decide

/-- C7 (amended): one invocation creates at most three documents, with
pairwise distinct canonical texts. Two invocations, the second on a snapshot
in which every document created by the first shows as a demo-authored post
with its text, create together at most three documents and no text twice,
whether or not the `addDoc` calls succeed. -/
theorem ensureDemoPosts_twice_no_duplicates (ok₁ ok₂ : DocData → Bool)
    (first second : List Post)
    (hseen : ∀ d ∈ ensureDemoPosts ok₁ first,
      ∃ p ∈ second, p.authorId = "demo" ∧ p.text = d.text) :
    (ensureDemoPosts ok₁ first).length ≤ 3 ∧
    ((ensureDemoPosts ok₁ first).map (fun d => d.text)).Nodup ∧
    (ensureDemoPosts ok₁ first ++ ensureDemoPosts ok₂ second).length ≤ 3 ∧
    ((ensureDemoPosts ok₁ first ++ ensureDemoPosts ok₂ second).map (fun d => d.text)).Nodup ∧
    ∀ d ∈ ensureDemoPosts ok₁ first ++ ensureDemoPosts ok₂ second, d.text ∈ demoPostTexts := by
  obtain ⟨hnd₁, hcan₁⟩ := ensureDemoPosts_texts_nodup ok₁ first
  obtain ⟨hnd₂, hcan₂⟩ := ensureDemoPosts_texts_nodup ok₂ second
  have hdisj : ∀ t, t ∈ (ensureDemoPosts ok₁ first).map (fun d => d.text) →
      t ∈ (ensureDemoPosts ok₂ second).map (fun d => d.text) → False := by
    intro t ht₁ ht₂
    obtain ⟨d, hd, rfl⟩ := List.mem_map.mp ht₁
    have hmiss := (ensureDemoPosts_texts_sublist ok₂ second).subset ht₂
    rw [mem_missingTexts] at hmiss
    exact hmiss.2 (hseen d hd)
  have hnd : ((ensureDemoPosts ok₁ first ++ ensureDemoPosts ok₂ second).map
      (fun d => d.text)).Nodup := by
    rw [List.map_append, List.nodup_append]
    exact ⟨hnd₁, hnd₂, fun t ht₁ ht₂ => hdisj t ht₁ ht₂⟩
  have hcan : ∀ t ∈ (ensureDemoPosts ok₁ first ++ ensureDemoPosts ok₂ second).map
      (fun d => d.text), t ∈ demoPostTexts := by
    intro t ht
    rw [List.map_append, List.mem_append] at ht
    rcases ht with ht | ht
    · exact hcan₁ t ht
    · exact hcan₂ t ht
  have hlen₁ := length_le_three_of_nodup_canonical _ hnd₁ hcan₁
  have hlen := length_le_three_of_nodup_canonical _ hnd hcan
  rw [List.length_map] at hlen₁ hlen
  exact ⟨hlen₁, hnd₁, hlen, hnd, fun d hd => hcan d.text (List.mem_map_of_mem _ hd)⟩

/-- Witness of `ensureDemoPosts_twice_no_duplicates`: the first invocation
sees an empty snapshot, the second a snapshot of three demo-authored posts
with the canonical texts. -/
theorem ensureDemoPosts_twice_no_duplicates_witness :
    (∀ d ∈ ensureDemoPosts (fun _ => true) [],
      ∃ p ∈ defaultDemoPosts, p.authorId = "demo" ∧ p.text = d.text) ∧
    (ensureDemoPosts (fun _ => true) [] ++
      ensureDemoPosts (fun _ => true) defaultDemoPosts).length ≤ 3 ∧
    ((ensureDemoPosts (fun _ => true) [] ++
      ensureDemoPosts (fun _ => true) defaultDemoPosts).map (fun d => d.text)).Nodup :=
  ⟨by decide,
    (ensureDemoPosts_twice_no_duplicates (fun _ => true) (fun _ => true) [] defaultDemoPosts
      (by decide)).2.2.1,
    (ensureDemoPosts_twice_no_duplicates (fun _ => true) (fun _ => true) [] defaultDemoPosts
      (by decide)).2.2.2.1⟩

/-! ## The effect and its re-runs -/

/-- What one run of the effect does to the dependencies and to the record of
seeding. -/
theorem runEffect_facts (env : Env) (c : Component) :
    (runEffect env c).state.loading = false ∧
    (runEffect env c).state.demoPostsAdded = c.state.demoPostsAdded ∧
    (runEffect env c).effect.loading = c.state.loading ∧
    (runEffect env c).effect.demoPostsAdded = c.state.demoPostsAdded ∧
    (runEffect env c).seedCalls = c.seedCalls ∧
    (runEffect env c).created = c.created := by
  unfold runEffect
  cases env.user with
  | none => simp
  | some u => cases env.setupThrows <;> simp

/-- Re-rendering neither seeds nor touches the latch. -/
theorem settle_facts (env : Env) (fuel : Nat) (c : Component) :
    (settle env fuel c).state.demoPostsAdded = c.state.demoPostsAdded ∧
    (settle env fuel c).seedCalls = c.seedCalls ∧
    (settle env fuel c).created = c.created := by
  induction fuel generalizing c with
  | zero => exact ⟨rfl, rfl, rfl⟩
  | succ n ih =>
    unfold settle
    by_cases hch : depsChanged c = true
    · rw [if_pos hch]
      obtain ⟨h₁, h₂, h₃⟩ := ih (runEffect env c)
      obtain ⟨_, hlatch, _, _, hseed, hcreated⟩ := runEffect_facts env c
      exact ⟨h₁.trans hlatch, h₂.trans hseed, h₃.trans hcreated⟩
    · rw [if_neg hch]
      exact ⟨rfl, rfl, rfl⟩

/-- Two re-renders are enough: after them the dependencies are those of the
last effect run, so a further re-render changes nothing. -/
theorem settle_two_quiescent (env : Env) (c : Component) :
    depsChanged (settle env 2 c) = false ∧
    ∀ fuel, settle env fuel (settle env 2 c) = settle env 2 c := by
  have hq : depsChanged (settle env 2 c) = false := by
    simp only [settle]
    by_cases h₀ : depsChanged c = true
    · rw [if_pos h₀]
      by_cases h₁ : depsChanged (runEffect env c) = true
      · rw [if_pos h₁]
        obtain ⟨hl, hd, hel, hed, _, _⟩ := runEffect_facts env (runEffect env c)
        obtain ⟨hl', _, _, _, _, _⟩ := runEffect_facts env c
        simp [depsChanged, hl, hd, hel, hed, hl']
      · rw [if_neg h₁]
        simpa using h₁
    · rw [if_neg h₀]
      simpa using h₀
  refine ⟨hq, ?_⟩
  intro fuel
  cases fuel with
  | zero => rfl
  | succ n =>
    rw [settle, hq]
    simp

/-- After a re-render to quiescence the callbacks hold the current latch. -/
theorem settle_two_latch (env : Env) (c : Component) :
    (settle env 2 c).effect.demoPostsAdded = (settle env 2 c).state.demoPostsAdded := by
  have hq := (settle_two_quiescent env c).1
  simp only [depsChanged, Bool.or_eq_false_iff, bne_eq_false_iff_eq] at hq
  exact hq.2

/-- An event is delivered to the callback registered for it, or dropped. -/
theorem deliver_cases (env : Env) (c : Component) (e : Event) :
    deliver env c e = c ∨
    (∃ docs, deliver env c e = onSnapshotNext env c docs) ∨
    deliver env c e = onSnapshotError c ∨
    deliver env c e = onTimeout c := by
  cases e with
  | snapshot docs =>
    by_cases hl : c.effect.listening = true
    · exact Or.inr (Or.inl ⟨docs, by simp [deliver, hl]⟩)
    · exact Or.inl (by simp [deliver, hl])
  | subscriptionError =>
    by_cases hl : c.effect.listening = true
    · exact Or.inr (Or.inr (Or.inl (by simp [deliver, hl])))
    · exact Or.inl (by simp [deliver, hl])
  | timeout =>
    by_cases ht : c.effect.timerPending = true
    · exact Or.inr (Or.inr (Or.inr (by simp [deliver, ht])))
    · exact Or.inl (by simp [deliver, ht])

/-- The seeding record is what the latch says, one invocation when the latch
is set and none otherwise, also after the next event. -/
theorem deliver_seedCalls (env : Env) (c : Component) (e : Event)
    (hlatch : c.effect.demoPostsAdded = c.state.demoPostsAdded)
    (hlen : c.seedCalls.length = if c.state.demoPostsAdded then 1 else 0) :
    (deliver env c e).seedCalls.length =
      if (deliver env c e).state.demoPostsAdded then 1 else 0 := by
  rcases deliver_cases env c e with h | ⟨docs, h⟩ | h | h <;> rw [h]
  · exact hlen
  · unfold onSnapshotNext
    cases hcap : c.effect.demoPostsAdded with
    | false =>
      rw [hcap] at hlatch
      rw [← hlatch] at hlen
      simp at hlen
      simp [hlen]
    | true =>
      rw [hcap] at hlatch
      rw [← hlatch] at hlen
      simpa [← hlatch] using hlen
  · simpa [onSnapshotError] using hlen
  · unfold onTimeout
    cases c.effect.loading <;> simpa using hlen

/-- Delivering an event only ever appends to the seeding record. -/
theorem deliver_seedCalls_grows (env : Env) (c : Component) (e : Event) :
    c.seedCalls <+: (deliver env c e).seedCalls := by
  rcases deliver_cases env c e with h | ⟨docs, h⟩ | h | h <;> rw [h]
  · unfold onSnapshotNext
    cases c.effect.demoPostsAdded with
    | false => exact List.prefix_append _ _
    | true => exact List.prefix_refl _
  · exact List.prefix_refl _
  · unfold onTimeout
    cases c.effect.loading <;> exact List.prefix_refl _

/-! ## Runs of the component -/

/-- A run extended by one event. -/
theorem run_append_singleton (env : Env) (events : List Event) (e : Event) :
    run env (events ++ [e]) = step env (run env events) e := by
  simp [run, List.foldl_append]

/-- The latch and the seeding record after mounting. -/
theorem mount_facts (env : Env) :
    (mount env).state.demoPostsAdded = false ∧ (mount env).seedCalls = [] := by
  obtain ⟨hlatch, hseed, _⟩ := settle_facts env 2 (runEffect env initial)
  obtain ⟨_, hlatch', _, _, hseed', _⟩ := runEffect_facts env initial
  exact ⟨(hlatch.trans hlatch').trans rfl, (hseed.trans hseed').trans rfl⟩

/-- The latch and the seeding record after a step are those left by the
callback. -/
theorem step_facts (env : Env) (c : Component) (e : Event) :
    (step env c e).state.demoPostsAdded = (deliver env c e).state.demoPostsAdded ∧
    (step env c e).seedCalls = (deliver env c e).seedCalls := by
  obtain ⟨hlatch, hseed, _⟩ := settle_facts env 2 (deliver env c e)
  exact ⟨hlatch, hseed⟩

/-- After every run the callbacks hold the current latch, and the seeding
record has one entry when the latch is set and none otherwise. -/
theorem run_invariant (env : Env) (events : List Event) :
    (run env events).effect.demoPostsAdded = (run env events).state.demoPostsAdded ∧
    (run env events).seedCalls.length =
      if (run env events).state.demoPostsAdded then 1 else 0 := by
  induction events using List.reverseRecOn with
  | nil =>
    refine ⟨settle_two_latch env _, ?_⟩
    simp only [run, List.foldl_nil, (mount_facts env).1, (mount_facts env).2]
    rfl
  | append_singleton events e ih =>
    rw [run_append_singleton]
    refine ⟨settle_two_latch env _, ?_⟩
    simp only [(step_facts env (run env events) e).1, (step_facts env (run env events) e).2]
    exact deliver_seedCalls env (run env events) e ih.1 ih.2

/-- The seeding record of a run is a prefix of the record of every extension
of the run. -/
theorem run_seedCalls_grows (env : Env) (events more : List Event) :
    (run env events).seedCalls <+: (run env (events ++ more)).seedCalls := by
  induction more using List.reverseRecOn with
  | nil => simp
  | append_singleton more e ih =>
    rw [← List.append_assoc, run_append_singleton]
    refine ih.trans ?_
    rw [(step_facts env (run env (events ++ more)) e).2]
    exact deliver_seedCalls_grows env _ e

/-- Delivering an event leaves the listener of the current effect registered. -/
theorem deliver_listening (env : Env) (c : Component) (e : Event) :
    (deliver env c e).effect.listening = c.effect.listening := by
  rcases deliver_cases env c e with h | ⟨docs, h⟩ | h | h <;> rw [h]
  · unfold onSnapshotNext
    cases c.effect.demoPostsAdded <;> rfl
  · rfl
  · unfold onTimeout
    cases c.effect.loading <;> rfl

/-- For a signed-in user and a working store, a re-render keeps a listener
registered. -/
theorem settle_listening (user : User) (addDocOk : DocData → Bool) (fuel : Nat)
    (c : Component) (h : c.effect.listening = true) :
    (settle ⟨some user, false, addDocOk⟩ fuel c).effect.listening = true := by
  induction fuel generalizing c with
  | zero => exact h
  | succ n ih =>
    unfold settle
    by_cases hch : depsChanged c = true
    · rw [if_pos hch]
      exact ih (runEffect ⟨some user, false, addDocOk⟩ c) rfl
    · rw [if_neg hch]
      exact h

/-- For a signed-in user and a working store, a listener is registered after
every run. -/
theorem run_listening (user : User) (addDocOk : DocData → Bool) (events : List Event) :
    (run ⟨some user, false, addDocOk⟩ events).effect.listening = true := by
  induction events using List.reverseRecOn with
  | nil => exact settle_listening user addDocOk 2 (runEffect ⟨some user, false, addDocOk⟩ initial) rfl
  | append_singleton events e ih =>
    rw [run_append_singleton]
    refine settle_listening user addDocOk 2 _ ?_
    rw [deliver_listening]
    exact ih

/-- An event other than a snapshot neither seeds nor touches the latch. -/
theorem deliver_non_snapshot (env : Env) (c : Component) (e : Event)
    (he : isSnapshot e = false) :
    (deliver env c e).state.demoPostsAdded = c.state.demoPostsAdded ∧
    (deliver env c e).seedCalls = c.seedCalls := by
  cases e with
  | snapshot docs => simp [isSnapshot] at he
  | subscriptionError =>
    simp only [deliver]
    split
    · exact ⟨rfl, rfl⟩
    · exact ⟨rfl, rfl⟩
  | timeout =>
    simp only [deliver]
    split
    · unfold onTimeout
      split <;> exact ⟨rfl, rfl⟩
    · exact ⟨rfl, rfl⟩

/-- A run without a snapshot leaves the latch unset and seeds nothing. -/
theorem run_without_snapshot (env : Env) (events : List Event)
    (h : ∀ e ∈ events, isSnapshot e = false) :
    (run env events).state.demoPostsAdded = false ∧ (run env events).seedCalls = [] := by
  induction events using List.reverseRecOn with
  | nil => exact mount_facts env
  | append_singleton events e ih =>
    have ih' := ih (fun x hx => h x (List.mem_append_left _ hx))
    have he : isSnapshot e = false := h e (List.mem_append_right _ (List.mem_singleton_self e))
    rw [run_append_singleton]
    obtain ⟨hlatch, hseed⟩ := step_facts env (run env events) e
    obtain ⟨hlatch', hseed'⟩ := deliver_non_snapshot env (run env events) e he
    exact ⟨(hlatch.trans hlatch').trans ih'.1, (hseed.trans hseed').trans ih'.2⟩

/-- A snapshot delivered to callbacks that hold an unset latch seeds with the
snapshot's list and sets the latch. -/
theorem step_snapshot_unlatched (env : Env) (c : Component) (docs : List Doc)
    (hl : c.effect.listening = true) (hcap : c.effect.demoPostsAdded = false) :
    (step env c (Event.snapshot docs)).state.demoPostsAdded = true ∧
    (step env c (Event.snapshot docs)).seedCalls = c.seedCalls ++ [docs.map docToPost] := by
  obtain ⟨hlatch, hseed⟩ := step_facts env c (Event.snapshot docs)
  rw [hlatch, hseed]
  simp [deliver, hl, onSnapshotNext, hcap]

/-- A snapshot delivered to callbacks that hold a set latch does not seed. -/
theorem step_snapshot_latched (env : Env) (c : Component) (docs : List Doc)
    (hcap : c.effect.demoPostsAdded = true) (hstate : c.state.demoPostsAdded = true) :
    (step env c (Event.snapshot docs)).state.demoPostsAdded = true ∧
    (step env c (Event.snapshot docs)).seedCalls = c.seedCalls := by
  obtain ⟨hlatch, hseed⟩ := step_facts env c (Event.snapshot docs)
  rw [hlatch, hseed]
  by_cases hl : c.effect.listening = true
  · simp [deliver, hl, onSnapshotNext, hcap, hstate]
  · simp [deliver, hl, hstate]

/-- On the schedule in which the component renders to quiescence after every
event, `ensureDemoPosts` is invoked at most once: the record of invocations
has one entry when the latch `demoPostsAdded` is set and none otherwise, and
it only grows along a run. For a signed-in user and a working store the first
snapshot invokes seeding with its list and sets the latch, and the latch is
set after every snapshot. -/
theorem seeding_at_most_once (env : Env) (user : User) (addDocOk : DocData → Bool)
    (events more : List Event) (docs : List Doc) :
    (run env events).seedCalls.length ≤ 1 ∧
    ((run env events).seedCalls.length =
      if (run env events).state.demoPostsAdded then 1 else 0) ∧
    (run env events).seedCalls <+: (run env (events ++ more)).seedCalls ∧
    (run ⟨some user, false, addDocOk⟩
      (events.filter (fun e => !isSnapshot e) ++ [Event.snapshot docs])).seedCalls =
        [docs.map docToPost] ∧
    (run ⟨some user, false, addDocOk⟩
      (events.filter (fun e => !isSnapshot e) ++
        [Event.snapshot docs])).state.demoPostsAdded = true ∧
    (run ⟨some user, false, addDocOk⟩
      (events ++ [Event.snapshot docs])).state.demoPostsAdded = true := by
  have hinv := run_invariant env events
  refine ⟨?_, hinv.2, run_seedCalls_grows env events more, ?_, ?_, ?_⟩
  · rw [hinv.2]
    split <;> decide
  · have hquiet := run_without_snapshot ⟨some user, false, addDocOk⟩
      (events.filter (fun e => !isSnapshot e)) (by
        intro e he
        simpa using (List.mem_filter.mp he).2)
    have hcap := (run_invariant ⟨some user, false, addDocOk⟩
      (events.filter (fun e => !isSnapshot e))).1
    rw [hquiet.1] at hcap
    rw [run_append_singleton,
      (step_snapshot_unlatched _ _ docs (run_listening user addDocOk _) hcap).2, hquiet.2]
    rfl
  · have hquiet := run_without_snapshot ⟨some user, false, addDocOk⟩
      (events.filter (fun e => !isSnapshot e)) (by
        intro e he
        simpa using (List.mem_filter.mp he).2)
    have hcap := (run_invariant ⟨some user, false, addDocOk⟩
      (events.filter (fun e => !isSnapshot e))).1
    rw [hquiet.1] at hcap
    rw [run_append_singleton]
    exact (step_snapshot_unlatched _ _ docs (run_listening user addDocOk _) hcap).1
  · rw [run_append_singleton]
    have hcap := (run_invariant ⟨some user, false, addDocOk⟩ events).1
    cases hc : (run ⟨some user, false, addDocOk⟩ events).effect.demoPostsAdded with
    | false =>
      exact (step_snapshot_unlatched _ _ docs (run_listening user addDocOk _) hc).1
    | true =>
      exact (step_snapshot_latched _ _ docs hc (hcap ▸ hc)).1

/-! ## The timeout -/

/-- The effect body leaves the advisory as it is or sets the one of its
`catch` branch. -/
theorem runEffect_error (env : Env) (c : Component) :
    (runEffect env c).state.error = c.state.error ∨
    (runEffect env c).state.error = some "Failed to connect to database. Using demo data." := by
  unfold runEffect
  cases env.user with
  | none => exact Or.inl rfl
  | some u =>
    cases env.setupThrows with
    | false => exact Or.inl rfl
    | true => exact Or.inr rfl

/-- A re-render does not bring `loading` back and does not set the timeout
advisory. -/
theorem settle_loading_error (env : Env) (fuel : Nat) (c : Component)
    (hload : c.state.loading = false)
    (herr : c.state.error ≠ some "Connection timeout. Using demo data.") :
    (settle env fuel c).state.loading = false ∧
    (settle env fuel c).state.error ≠ some "Connection timeout. Using demo data." := by
  induction fuel generalizing c with
  | zero => exact ⟨hload, herr⟩
  | succ n ih =>
    unfold settle
    by_cases hch : depsChanged c = true
    · rw [if_pos hch]
      refine ih (runEffect env c) (runEffect_facts env c).1 ?_
      rcases runEffect_error env c with h | h
      · rw [h]
        exact herr
      · rw [h]
        decide
    · rw [if_neg hch]
      exact ⟨hload, herr⟩

/-- A callback whose effect closed over `loading = false` does not bring
`loading` back and does not set the timeout advisory. -/
theorem deliver_loading_error (env : Env) (c : Component) (e : Event)
    (hload : c.state.loading = false) (hcap : c.effect.loading = false)
    (herr : c.state.error ≠ some "Connection timeout. Using demo data.") :
    (deliver env c e).state.loading = false ∧
    (deliver env c e).state.error ≠ some "Connection timeout. Using demo data." := by
  rcases deliver_cases env c e with h | ⟨docs, h⟩ | h | h <;> rw [h]
  · exact ⟨hload, herr⟩
  · unfold onSnapshotNext
    cases c.effect.demoPostsAdded <;> exact ⟨rfl, by simp⟩
  · exact ⟨rfl, by simp [onSnapshotError]⟩
  · unfold onTimeout
    rw [hcap]
    exact ⟨hload, herr⟩

/-- After every run `loading` is false, the pending timer closed over
`loading = false`, and the advisory is not the one of the timeout. -/
theorem run_loading_error (env : Env) (events : List Event) :
    (run env events).state.loading = false ∧
    (run env events).effect.loading = false ∧
    (run env events).state.error ≠ some "Connection timeout. Using demo data." := by
  have hquiet : ∀ c : Component, (settle env 2 c).state.loading = false →
      (settle env 2 c).effect.loading = false := by
    intro c hload
    have hq := (settle_two_quiescent env c).1
    simp only [depsChanged, Bool.or_eq_false_iff, bne_eq_false_iff_eq] at hq
    exact hq.1.trans hload
  induction events using List.reverseRecOn with
  | nil =>
    have hstart : (runEffect env initial).state.error ≠
        some "Connection timeout. Using demo data." := by
      rcases runEffect_error env initial with h | h <;> rw [h] <;> decide
    obtain ⟨hload, herr⟩ :=
      settle_loading_error env 2 (runEffect env initial) (runEffect_facts env initial).1 hstart
    exact ⟨hload, hquiet _ hload, herr⟩
  | append_singleton events e ih =>
    rw [run_append_singleton]
    obtain ⟨hload, herr⟩ := deliver_loading_error env (run env events) e ih.1 ih.2.1 ih.2.2
    obtain ⟨hload', herr'⟩ := settle_loading_error env 2 _ hload herr
    exact ⟨hload', hquiet _ hload', herr'⟩

/-- C9 (evaluation at the failing input): a signed-in user, a working store,
and no snapshot and no subscription error before the timer fires. The timer
armed by the first run of the effect closed over `loading = true` and would
set the advisory, but that run's `setLoading(false)` changes the dependencies,
so the effect is cleaned up and re-run; the timer that is pending after
mounting closed over `loading = false`. When it fires the posts state is the
list of the three default demo posts and the error advisory is still null.
More generally no run of the component ends with the timeout advisory. -/
theorem timeout_sets_no_advisory (env : Env) (user : User) (addDocOk : DocData → Bool)
    (events : List Event) :
    (onTimeout (runEffect ⟨some user, false, addDocOk⟩ initial)).state.error =
      some "Connection timeout. Using demo data." ∧
    (mount ⟨some user, false, addDocOk⟩).effect.timerPending = true ∧
    (mount ⟨some user, false, addDocOk⟩).effect.loading = false ∧
    (mount ⟨some user, false, addDocOk⟩).effect.listening = true ∧
    (run ⟨some user, false, addDocOk⟩ [Event.timeout]).state.posts = defaultDemoPosts ∧
    (run ⟨some user, false, addDocOk⟩ [Event.timeout]).state.error = none ∧
    (run env events).state.error ≠ some "Connection timeout. Using demo data." := by
  exact ⟨rfl, rfl, rfl, rfl, rfl, rfl, (run_loading_error env events).2.2⟩

/-! ## Schedules with several events between two renders -/

/-- Rendering to quiescence is two renders. -/
theorem settle_two_eq_render (env : Env) (c : Component) :
    settle env 2 c = render env (render env c) := by
  by_cases h₀ : depsChanged c = true
  · by_cases h₁ : depsChanged (runEffect env c) = true
    · simp [settle, render, h₀, h₁]
    · simp [settle, render, h₀, h₁]
  · simp [settle, render, h₀]

/-- A step of `run` is the event followed by two renders. -/
theorem step_eq_acts (env : Env) (c : Component) (e : Event) :
    step env c e = [Action.event e, Action.render, Action.render].foldl (act env) c := by
  simp [step, act, settle_two_eq_render]

/-- A schedule extended by one action. -/
theorem trace_append_singleton (env : Env) (actions : List Action) (a : Action) :
    trace env (actions ++ [a]) = act env (trace env actions) a := by
  simp [trace, List.foldl_append]

/-- For a signed-in user and a working store, a listener is registered after
every schedule. -/
theorem trace_listening (user : User) (addDocOk : DocData → Bool) (actions : List Action) :
    (trace ⟨some user, false, addDocOk⟩ actions).effect.listening = true := by
  induction actions using List.reverseRecOn with
  | nil => exact run_listening user addDocOk []
  | append_singleton actions a ih =>
    rw [trace_append_singleton]
    cases a with
    | event e =>
      simp only [act]
      rw [deliver_listening]
      exact ih
    | render =>
      simp only [act, render]
      split
      · rfl
      · exact ih

/-- C8 (evaluation at the failing input): a signed-in user, a working store,
and two snapshots that reach the listener of one subscription before the
component renders. The first callback sets the latch in the state, but the
listener still holds the `demoPostsAdded = false` captured by its effect, so
the second callback invokes `ensureDemoPosts` again: two invocations, and six
documents created when both snapshots are empty. With a render between the two
snapshots the effect is re-run and the second callback does not seed. -/
theorem stale_listener_seeds_twice (user : User) (addDocOk : DocData → Bool)
    (first second : List Doc) :
    (trace ⟨some user, false, addDocOk⟩
      [Action.event (Event.snapshot first)]).state.demoPostsAdded = true ∧
    (trace ⟨some user, false, addDocOk⟩
      [Action.event (Event.snapshot first)]).effect.demoPostsAdded = false ∧
    (trace ⟨some user, false, addDocOk⟩
      [Action.event (Event.snapshot first)]).effect.listening = true ∧
    (trace ⟨some user, false, addDocOk⟩
      [Action.event (Event.snapshot first),
        Action.event (Event.snapshot second)]).seedCalls =
        [first.map docToPost, second.map docToPost] ∧
    (trace ⟨some user, false, addDocOk⟩
      [Action.event (Event.snapshot first),
        Action.event (Event.snapshot second)]).seedCalls.length = 2 ∧
    (trace ⟨some user, false, fun _ => true⟩
      [Action.event (Event.snapshot []), Action.event (Event.snapshot [])]).created.map
        (fun d => d.text) = demoPostTexts ++ demoPostTexts ∧
    (trace ⟨some user, false, addDocOk⟩
      [Action.event (Event.snapshot first), Action.render,
        Action.event (Event.snapshot second)]).seedCalls = [first.map docToPost] := by
  exact ⟨rfl, rfl, rfl, rfl, rfl, rfl, rfl⟩

/-! ## The snapshot callback -/

/-- A render changes nothing when the dependencies are those captured. -/
theorem settle_of_unchanged (env : Env) (fuel : Nat) (c : Component)
    (h : depsChanged c = false) : settle env fuel c = c := by
  cases fuel with
  | zero => rfl
  | succ n => simp [settle, h]

/-- The posts and the advisory the callback leaves. -/
theorem onSnapshotNext_state (env : Env) (c : Component) (docs : List Doc) :
    (onSnapshotNext env c docs).state.posts = docs.map docToPost ∧
    (onSnapshotNext env c docs).state.error = none ∧
    (onSnapshotNext env c docs).state.loading = false := by
  unfold onSnapshotNext
  cases c.effect.demoPostsAdded <;> exact ⟨rfl, rfl, rfl⟩

/-- For a signed-in user and a working store, a run that ends with a snapshot
ends with the latch set, in the state and in the callbacks. -/
theorem run_after_snapshot (user : User) (addDocOk : DocData → Bool)
    (events : List Event) (docs : List Doc) :
    (run ⟨some user, false, addDocOk⟩ (events ++ [Event.snapshot docs])).state.demoPostsAdded
      = true ∧
    (run ⟨some user, false, addDocOk⟩ (events ++ [Event.snapshot docs])).effect.demoPostsAdded
      = true :=
  have h := (seeding_at_most_once ⟨some user, false, addDocOk⟩ user addDocOk events []
    docs).2.2.2.2.2
  ⟨h, (run_invariant ⟨some user, false, addDocOk⟩ (events ++ [Event.snapshot docs])).1.trans h⟩

/-- C5: after the snapshot callback has run, whatever the component held
before, the posts state is the list of the snapshot's documents in the
delivered order, each as the object `{ id: d.id, ...d.data() }` (the fields of
the data, and as id the data's own `id` field when it has one, else `d.id`),
and the error advisory is null. For a signed-in user and a working store this
is the state after a snapshot is delivered at the end of any schedule of
events and renders; and in a run in which an earlier snapshot has set the
latch it is still the state after the render that follows the callback. -/
theorem onSnapshotNext_replaces_posts (env : Env) (c : Component) (docs earlier : List Doc)
    (user : User) (addDocOk : DocData → Bool) (actions : List Action)
    (events : List Event) :
    (onSnapshotNext env c docs).state.posts =
      docs.map (fun d =>
        { id := d.dataId.getD d.id
          text := d.data.text
          authorId := d.data.authorId
          authorName := d.data.authorName
          likes := d.data.likes
          comments := d.data.comments
          createdAt := d.data.createdAt }) ∧
    (onSnapshotNext env c docs).state.error = none ∧
    (trace ⟨some user, false, addDocOk⟩
      (actions ++ [Action.event (Event.snapshot docs)])).state.posts =
      docs.map (fun d =>
        { id := d.dataId.getD d.id
          text := d.data.text
          authorId := d.data.authorId
          authorName := d.data.authorName
          likes := d.data.likes
          comments := d.data.comments
          createdAt := d.data.createdAt }) ∧
    (trace ⟨some user, false, addDocOk⟩
      (actions ++ [Action.event (Event.snapshot docs)])).state.error = none ∧
    (run ⟨some user, false, addDocOk⟩
      (events ++ [Event.snapshot earlier] ++ [Event.snapshot docs])).state.posts =
      docs.map (fun d =>
        { id := d.dataId.getD d.id
          text := d.data.text
          authorId := d.data.authorId
          authorName := d.data.authorName
          likes := d.data.likes
          comments := d.data.comments
          createdAt := d.data.createdAt }) ∧
    (run ⟨some user, false, addDocOk⟩
      (events ++ [Event.snapshot earlier] ++ [Event.snapshot docs])).state.error = none := by
  have hcb : ∀ (e : Env) (x : Component), (onSnapshotNext e x docs).state.posts =
      docs.map (fun d =>
        ({ id := d.dataId.getD d.id
           text := d.data.text
           authorId := d.data.authorId
           authorName := d.data.authorName
           likes := d.data.likes
           comments := d.data.comments
           createdAt := d.data.createdAt } : Post)) ∧
      (onSnapshotNext e x docs).state.error = none := by
    intro e x
    exact ⟨(onSnapshotNext_state e x docs).1, (onSnapshotNext_state e x docs).2.1⟩
  refine ⟨(hcb env c).1, (hcb env c).2, ?_, ?_, ?_, ?_⟩
  · rw [trace_append_singleton]
    simp only [act, deliver, trace_listening user addDocOk actions, if_true]
    exact (hcb _ _).1
  · rw [trace_append_singleton]
    simp only [act, deliver, trace_listening user addDocOk actions, if_true]
    exact (hcb _ _).2
  all_goals
    rw [run_append_singleton]
    obtain ⟨hlatch, hcap⟩ := run_after_snapshot user addDocOk events earlier
    obtain ⟨hload, hcapload, _⟩ :=
      run_loading_error ⟨some user, false, addDocOk⟩ (events ++ [Event.snapshot earlier])
    have hlisten := run_listening user addDocOk (events ++ [Event.snapshot earlier])
    have hdel : deliver ⟨some user, false, addDocOk⟩
        (run ⟨some user, false, addDocOk⟩ (events ++ [Event.snapshot earlier]))
        (Event.snapshot docs) =
        onSnapshotNext ⟨some user, false, addDocOk⟩
          (run ⟨some user, false, addDocOk⟩ (events ++ [Event.snapshot earlier])) docs := by
      simp only [deliver, hlisten, if_true]
    have hquiet : depsChanged (onSnapshotNext ⟨some user, false, addDocOk⟩
        (run ⟨some user, false, addDocOk⟩ (events ++ [Event.snapshot earlier])) docs)
        = false := by
      simp [depsChanged, onSnapshotNext, hcap, hcapload, hlatch]
    simp only [step, hdel, settle_of_unchanged _ 2 _ hquiet]
  · exact (hcb _ _).1
  · exact (hcb _ _).2

/-- On the snapshot that sets the latch the callback changes the dependency
`demoPostsAdded`, so the render that follows re-runs the effect, whose body
sets the posts state to the default demo posts again. -/
theorem first_snapshot_then_effect_rerun (user : User) (addDocOk : DocData → Bool)
    (docs : List Doc) :
    (run ⟨some user, false, addDocOk⟩ [Event.snapshot docs]).state.posts = defaultDemoPosts ∧
    (run ⟨some user, false, addDocOk⟩ [Event.snapshot docs]).state.error = none :=
  ⟨rfl, rfl⟩

end HomePage
